import Mathlib

/-!
# Verification of the ECODEGRADERS marker reconciliation / navigation core

A shallow embedding of the marker-synchronization, live-update, distance and
navigation logic of `src/components/MapComponent.tsx` and
`src/components/Pins.tsx`, with theorems settling the specification claims.

Conventions of the embedding:
* JavaScript numbers are modelled as real numbers (`ℝ`); the trigonometric
  distance computation is interpreted with exact real-valued `sin`, `cos`,
  `sqrt` and `atan2`.
* The marker store (a React `useState` list) is a `List MarkerData`, in the
  component's iteration order.
* Imperative commands injected into the rendering surface (the WebView) are
  reified as values of the `Instr` type, collected in issue order.
* `JSON.parse` is an external platform primitive; the message handler is
  modelled on its outcome, `Except Unit WsData`, where `Except.error` stands
  for any payload on which `JSON.parse` throws (every non-JSON string).
-/

namespace Ecodegraders

/-- `MarkerData` from `MapComponent.tsx` / `Pins.tsx`:
`{ id, lat, lng, contaminationLevel?, plasticLevel?, status? }`. -/
structure MarkerData where
  id : String
  lat : ℝ
  lng : ℝ
  contaminationLevel : Option String
  plasticLevel : Option String
  status : Option String

/-- A raw `place` record of a push-channel envelope:
`{place_id, latitude, longitude, pollution_level, plastic_level, status}`. -/
structure Place where
  place_id : String
  latitude : ℝ
  longitude : ℝ
  pollution_level : Option String
  plastic_level : Option String
  status : Option String

/-- Normalization of a raw place into a `MarkerData`, as written inline in the
`onmessage` branches of `MapComponent.tsx` (`id: String(place.place_id)`,
`lat: place.latitude`, ...). `place_id` is already held as a string. -/
def normalizePlace (p : Place) : MarkerData :=
  { id := p.place_id
    lat := p.latitude
    lng := p.longitude
    contaminationLevel := p.pollution_level
    plasticLevel := p.plastic_level
    status := p.status }

/-- Imperative instructions sent to the rendering surface (the messages the
injected scripts dispatch into the WebView). -/
inductive Instr where
  | ADD_MARKER (m : MarkerData)
  | REMOVE_MARKER (id : String)

/-- The ids of a marker collection (`markers.map((m) => m.id)`). -/
def markerIds (l : List MarkerData) : List String :=
  l.map (fun m => m.id)

/-- `addedMarkers` of `syncMarkersWithMap`:
`newMarkers.filter((m) => !oldSet.has(m.id))` where `oldSet` is the set of
ids of `oldMarkers`. -/
def addedMarkers (oldMarkers newMarkers : List MarkerData) : List MarkerData :=
  newMarkers.filter (fun m => !((markerIds oldMarkers).contains m.id))

/-- `removedMarkers` of `syncMarkersWithMap`:
`oldMarkers.filter((m) => !newSet.has(m.id))` where `newSet` is the set of
ids of `newMarkers`. -/
def removedMarkers (oldMarkers newMarkers : List MarkerData) : List MarkerData :=
  oldMarkers.filter (fun m => !((markerIds newMarkers).contains m.id))

/-- `syncMarkersWithMap(oldMarkers, newMarkers)` (identical in
`MapComponent.tsx` and `Pins.tsx`): issues one `ADD_MARKER` instruction per
added marker, then one `REMOVE_MARKER` instruction (keyed by id) per removed
marker. -/
def syncMarkersWithMap (oldMarkers newMarkers : List MarkerData) : List Instr :=
  (addedMarkers oldMarkers newMarkers).map Instr.ADD_MARKER
    ++ (removedMarkers oldMarkers newMarkers).map (fun m => Instr.REMOVE_MARKER m.id)

/-- Membership form of the filter used by the reconciler. -/
theorem mem_addedMarkers (oldMarkers newMarkers : List MarkerData) (m : MarkerData) :
    m ∈ addedMarkers oldMarkers newMarkers ↔
      m ∈ newMarkers ∧ m.id ∉ markerIds oldMarkers := by
  simp [addedMarkers, List.mem_filter]

theorem mem_removedMarkers (oldMarkers newMarkers : List MarkerData) (m : MarkerData) :
    m ∈ removedMarkers oldMarkers newMarkers ↔
      m ∈ oldMarkers ∧ m.id ∉ markerIds newMarkers := by
  simp [removedMarkers, List.mem_filter]

/-- Sample markers used to instantiate witnesses. -/
def mA : MarkerData := ⟨"a", 0, 0, none, none, none⟩

def mB : MarkerData := ⟨"b", 0, 0, none, none, none⟩

def mC : MarkerData := ⟨"c", 0, 0, none, none, none⟩

/-- C1: `syncMarkersWithMap` computes `added` as exactly the markers of the
next collection whose id is absent from the previous ids, `removed` as
exactly the markers of the previous collection whose id is absent from the
next ids, by id equality only (a marker of the next collection whose id is
shared with the previous one is never reported added, regardless of field
differences); reconciling in the swapped order yields the swapped result,
and the issued instructions are one `ADD_MARKER` per added marker and one
`REMOVE_MARKER` per removed marker. -/
theorem reconciler_diff_spec :
    (∀ old new m, m ∈ addedMarkers old new ↔ m ∈ new ∧ m.id ∉ markerIds old)
    ∧ (∀ old new m, m ∈ removedMarkers old new ↔ m ∈ old ∧ m.id ∉ markerIds new)
    ∧ (∀ old new m, m.id ∈ markerIds old → m ∉ addedMarkers old new)
    ∧ (∀ old new, addedMarkers new old = removedMarkers old new)
    ∧ (∀ old new, removedMarkers new old = addedMarkers old new)
    ∧ (∀ old new, syncMarkersWithMap old new =
        (addedMarkers old new).map Instr.ADD_MARKER
          ++ (removedMarkers old new).map (fun m => Instr.REMOVE_MARKER m.id))
    ∧ (∀ old new m, m ∈ addedMarkers old new →
        Instr.ADD_MARKER m ∈ syncMarkersWithMap old new)
    ∧ (∀ old new m, m ∈ removedMarkers old new →
        Instr.REMOVE_MARKER m.id ∈ syncMarkersWithMap old new) := by
  refine ⟨mem_addedMarkers, mem_removedMarkers, ?_, ?_, ?_, ?_, ?_, ?_⟩
  · intro old new m hid hmem
    exact ((mem_addedMarkers old new m).1 hmem).2 hid
  · intro old new; rfl
  · intro old new; rfl
  · intro old new; rfl
  · intro old new m hm
    exact List.mem_append_left _ (List.mem_map_of_mem Instr.ADD_MARKER hm)
  · intro old new m hm
    exact List.mem_append_right _ (List.mem_map_of_mem _ hm)

/-- Witness for C1: on previous = `[mA]`, next = `[mB]` the reconciler issues
`ADD_MARKER mB` and `REMOVE_MARKER "a"`. -/
theorem reconciler_diff_spec_witness :
    Instr.ADD_MARKER mB ∈ syncMarkersWithMap [mA] [mB]
      ∧ Instr.REMOVE_MARKER "a" ∈ syncMarkersWithMap [mA] [mB] := by
  have hadd : mB ∈ addedMarkers [mA] [mB] :=
    (reconciler_diff_spec.1 [mA] [mB] mB).mpr ⟨by simp, by decide⟩
  have hrem : mA ∈ removedMarkers [mA] [mB] :=
    (reconciler_diff_spec.2.1 [mA] [mB] mA).mpr ⟨by simp, by decide⟩
  exact ⟨reconciler_diff_spec.2.2.2.2.2.2.1 [mA] [mB] mB hadd,
    reconciler_diff_spec.2.2.2.2.2.2.2 [mA] [mB] mA hrem⟩

/-! ## Live update channel: the `onmessage` handler of `MapComponent.tsx` -/

/-- The parsed shape of a push-channel envelope as the handler reads it:
`data.action` and `data.place` (either may be absent). -/
structure WsData where
  action : Option String
  place : Option Place

/-- Outcome of one run of the `onmessage` handler: the marker store after the
handler, the instructions injected into the rendering surface, whether the
`catch` block logged an error, and whether the handler closed the channel
(it never does — no code path calls `close`). -/
structure MsgOutcome where
  markers : List MarkerData
  instrs : List Instr
  errorLogged : Bool
  channelClosed : Bool

/-- The `wsRef.current.onmessage` handler of `MapComponent.tsx`.
`msg` is the outcome of `JSON.parse(event.data)`: `Except.error` stands for
any malformed payload on which `JSON.parse` throws, in which case control
reaches the `catch` block, which only logs. On a parsed envelope the three
`if` branches (`added`, `deleted`, `updated`) run in sequence; at most one
matches a given `action`. -/
def onMessage (store : List MarkerData) (msg : Except Unit WsData) : MsgOutcome :=
  match msg with
  | .error _ => ⟨store, [], true, false⟩
  | .ok d =>
    -- action === 'added' && data.place
    let s1 :=
      if d.action = some "added" then
        match d.place with
        | some p =>
          let newMarker := normalizePlace p
          if (markerIds store).contains newMarker.id then (store, ([] : List Instr))
          else (store ++ [newMarker], syncMarkersWithMap store (store ++ [newMarker]))
        | none => (store, [])
      else (store, [])
    -- action === 'deleted' && data.place
    let s2 :=
      if d.action = some "deleted" then
        match d.place with
        | some p =>
          let deletedId := p.place_id
          let updated := s1.1.filter (fun m => !(m.id = deletedId))
          (updated, syncMarkersWithMap s1.1 updated ++ [Instr.REMOVE_MARKER deletedId])
        | none => (s1.1, ([] : List Instr))
      else (s1.1, [])
    -- action === 'updated' && data.place
    let s3 :=
      if d.action = some "updated" then
        match d.place with
        | some p =>
          let updatedMarker := normalizePlace p
          (s2.1.map (fun m => if m.id = updatedMarker.id then updatedMarker else m),
            [Instr.REMOVE_MARKER updatedMarker.id, Instr.ADD_MARKER updatedMarker])
        | none => (s2.1, ([] : List Instr))
      else (s2.1, [])
    ⟨s3.1, s1.2 ++ s2.2 ++ s3.2, false, false⟩

/-- Folding the handler over a sequence of incoming channel messages; the
channel keeps listening after every message. -/
def processMessages (store : List MarkerData) : List (Except Unit WsData) → List MarkerData
  | [] => store
  | msg :: rest => processMessages (onMessage store msg).markers rest

/-- Evaluation of the handler on an `updated` envelope. -/
theorem onMessage_updated_eval (store : List MarkerData) (p : Place) :
    onMessage store (.ok ⟨some "updated", some p⟩) =
      ⟨store.map (fun m =>
          if m.id = (normalizePlace p).id then normalizePlace p else m),
        [Instr.REMOVE_MARKER (normalizePlace p).id,
          Instr.ADD_MARKER (normalizePlace p)],
        false, false⟩ := rfl

/-- Evaluation of the handler on a `deleted` envelope. -/
theorem onMessage_deleted_eval (store : List MarkerData) (p : Place) :
    onMessage store (.ok ⟨some "deleted", some p⟩) =
      ⟨store.filter (fun m => !(m.id = p.place_id)),
        syncMarkersWithMap store (store.filter (fun m => !(m.id = p.place_id)))
          ++ [Instr.REMOVE_MARKER p.place_id],
        false, false⟩ := by
  simp [onMessage]

/-- Replacing by id is the identity map when the id does not occur. -/
theorem replace_map_id (store : List MarkerData) (u : MarkerData)
    (h : u.id ∉ markerIds store) :
    store.map (fun m => if m.id = u.id then u else m) = store := by
  have hc : ∀ m ∈ store, (if m.id = u.id then u else m) = m := by
    intro m hm
    refine if_neg (fun he => h ?_)
    exact he ▸ List.mem_map_of_mem (fun m => m.id) hm
  rw [List.map_congr_left hc, List.map_id']

/-- Filtering out an id that does not occur is the identity. -/
theorem filter_ne_id_eq_self (store : List MarkerData) (did : String)
    (h : did ∉ markerIds store) :
    store.filter (fun m => !(m.id = did)) = store := by
  refine List.filter_eq_self.mpr ?_
  intro m hm
  have : m.id ≠ did := fun he => h (he ▸ List.mem_map_of_mem (fun m => m.id) hm)
  simpa using this

/-- Replacing by id never changes the sequence of stored ids. -/
theorem replace_preserves_ids (store : List MarkerData) (u : MarkerData) :
    markerIds (store.map (fun m => if m.id = u.id then u else m)) = markerIds store := by
  unfold markerIds
  rw [List.map_map]
  refine List.map_congr_left ?_
  intro m _
  by_cases h : m.id = u.id
  · simp [Function.comp, h]
  · simp [Function.comp, h]

/-- After an in-place replacement at a present, unique id, the markers whose
id matches are exactly the single replacement. -/
theorem replace_filter_eq (store : List MarkerData) (u : MarkerData)
    (hnd : (markerIds store).Nodup) (hmem : u.id ∈ markerIds store) :
    (store.map (fun m => if m.id = u.id then u else m)).filter
      (fun m => m.id == u.id) = [u] := by
  induction store with
  | nil => simp [markerIds] at hmem
  | cons a t ih =>
    have hnd' : a.id ∉ markerIds t ∧ (markerIds t).Nodup := by
      simpa [markerIds, List.nodup_cons] using hnd
    by_cases h : a.id = u.id
    · have hu : u.id ∉ markerIds t := h ▸ hnd'.1
      have htail : (t.map (fun m => if m.id = u.id then u else m)).filter
          (fun m => m.id == u.id) = [] := by
        rw [replace_map_id t u hu]
        refine List.filter_eq_nil_iff.mpr ?_
        intro m hm
        have : m.id ≠ u.id := fun he => hu (he ▸ List.mem_map_of_mem (fun m => m.id) hm)
        simpa using this
      simp [h, htail]
    · have hmem' : u.id ∈ markerIds t := by
        rcases (by simpa [markerIds] using hmem : u.id = a.id ∨ u.id ∈ markerIds t) with
          he | ht
        · exact absurd he.symm h
        · exact ht
      have := ih hnd'.2 hmem'
      simp only [List.map_cons, List.filter_cons, if_neg h]
      simpa [h] using this

/-- C5: a malformed channel payload (any string on which `JSON.parse` throws)
is caught by the handler's `try/catch`: the error is logged, no uncaught
exception escapes, the marker store is unchanged, no instruction is issued,
and the channel stays open and processes subsequent messages as if the
malformed one had never arrived. -/
theorem channel_malformed_resilience :
    (∀ store, onMessage store (Except.error ()) =
      ⟨store, [], true, false⟩)
    ∧ (∀ store msg, (onMessage store msg).channelClosed = false)
    ∧ (∀ store rest, processMessages store (Except.error () :: rest) =
        processMessages store rest) := by
  refine ⟨fun store => rfl, fun store msg => ?_, fun store rest => rfl⟩
  cases msg <;> rfl

/-- C2: on an `updated` event whose place id is present in a
duplicate-free marker store, the handler leaves the store holding exactly one
marker with that id — the normalized event payload — with no duplicate and no
stale copy (the id sequence, hence uniqueness, is preserved), and sends the
rendering surface exactly a `REMOVE_MARKER` for that id followed by an
`ADD_MARKER` of the updated marker, with no reconciler involvement. -/
theorem channel_updated_replaces_in_place :
    ∀ store p, (markerIds store).Nodup → p.place_id ∈ markerIds store →
      ((onMessage store (.ok ⟨some "updated", some p⟩)).markers.filter
          (fun m => m.id == p.place_id) = [normalizePlace p])
      ∧ markerIds (onMessage store (.ok ⟨some "updated", some p⟩)).markers
          = markerIds store
      ∧ (markerIds (onMessage store (.ok ⟨some "updated", some p⟩)).markers).Nodup
      ∧ (onMessage store (.ok ⟨some "updated", some p⟩)).instrs =
          [Instr.REMOVE_MARKER p.place_id, Instr.ADD_MARKER (normalizePlace p)] := by
  intro store p hnd hmem
  rw [onMessage_updated_eval]
  have h2 := replace_preserves_ids store (normalizePlace p)
  exact ⟨replace_filter_eq store (normalizePlace p) hnd hmem, h2,
    by rw [h2]; exact hnd, rfl⟩

/-- The stored marker and the update payload of the spec's update-via-channel
scenario (`{id:"x", status:"Pendiente"}`, event value `status:"Completo"`). -/
def mX : MarkerData := ⟨"x", 0, 0, none, none, some "Pendiente"⟩

def pX : Place := ⟨"x", 0, 0, none, none, some "Completo"⟩

/-- Witness for C2: the update-via-channel scenario of the spec. -/
theorem channel_updated_witness :
    (markerIds [mX]).Nodup ∧ pX.place_id ∈ markerIds [mX]
      ∧ ((onMessage [mX] (.ok ⟨some "updated", some pX⟩)).markers.filter
          (fun m => m.id == pX.place_id) = [normalizePlace pX])
      ∧ (onMessage [mX] (.ok ⟨some "updated", some pX⟩)).instrs =
          [Instr.REMOVE_MARKER pX.place_id, Instr.ADD_MARKER (normalizePlace pX)] :=
  ⟨by decide, by decide,
    (channel_updated_replaces_in_place [mX] pX (by decide) (by decide)).1,
    (channel_updated_replaces_in_place [mX] pX (by decide) (by decide)).2.2.2⟩

/-- C10: an `updated` or `deleted` event whose place id does not occur in the
marker store leaves the store unchanged and logs no error: the per-marker
replacement and the filter are identities on such a store. -/
theorem channel_event_absent_id_noop :
    ∀ store p, p.place_id ∉ markerIds store →
      (onMessage store (.ok ⟨some "updated", some p⟩)).markers = store
      ∧ (onMessage store (.ok ⟨some "updated", some p⟩)).errorLogged = false
      ∧ (onMessage store (.ok ⟨some "deleted", some p⟩)).markers = store
      ∧ (onMessage store (.ok ⟨some "deleted", some p⟩)).errorLogged = false := by
  intro store p h
  rw [onMessage_updated_eval, onMessage_deleted_eval]
  exact ⟨replace_map_id store (normalizePlace p) h, rfl,
    filter_ne_id_eq_self store p.place_id h, rfl⟩

/-- An update payload whose id occurs in no sample store. -/
def pZ : Place := ⟨"z", 0, 0, none, none, none⟩

/-- Witness for C10: an absent-id event on the store `[mA]` is a no-op. -/
theorem channel_event_absent_id_noop_witness :
    pZ.place_id ∉ markerIds [mA]
      ∧ (onMessage [mA] (.ok ⟨some "updated", some pZ⟩)).markers = [mA]
      ∧ (onMessage [mA] (.ok ⟨some "deleted", some pZ⟩)).markers = [mA] :=
  ⟨by decide,
    (channel_event_absent_id_noop [mA] pZ (by decide)).1,
    (channel_event_absent_id_noop [mA] pZ (by decide)).2.2.1⟩

/-! ## Full-set fetch refresh (`fetchMarkers` of `Pins.tsx`) -/

/-- A raw record returned by the bulk-fetch endpoint
(`{id, latitude, longitude, pollution_level, plastic_level, status}`).
`Pins.tsx` normalizes `id: String(item.id || lat-lng-random-fallback)`; the
model covers records carrying an id (the spec's design notes treat the
random fallback for id-less records as a degraded/legacy mode). -/
structure RawItem where
  id : String
  latitude : ℝ
  longitude : ℝ
  pollution_level : Option String
  plastic_level : Option String
  status : Option String

/-- `mapAPIToMarkers` of `Pins.tsx` on records carrying an id. -/
def mapAPIToMarkers (data : List RawItem) : List MarkerData :=
  data.map (fun item =>
    { id := item.id
      lat := item.latitude
      lng := item.longitude
      contaminationLevel := item.pollution_level
      plasticLevel := item.plastic_level
      status := item.status })

/-- One refreshed run of `fetchMarkers` in `Pins.tsx`: normalize the fetched
collection, reconcile it against the current store
(`syncMarkersWithMap(markers, newMarkers)`), and replace the store with the
normalized collection (`setMarkers(newMarkers)`). Returns the new store and
the instructions issued. -/
def fetchMarkersStep (store : List MarkerData) (data : List RawItem) :
    List MarkerData × List Instr :=
  let newMarkers := mapAPIToMarkers data
  (newMarkers, syncMarkersWithMap store newMarkers)

/-- The raw items of the spec's end-to-end fetch scenario. -/
def iA : RawItem := ⟨"a", 0, 0, none, none, none⟩

def iB : RawItem := ⟨"b", 0, 0, none, none, none⟩

def iC : RawItem := ⟨"c", 0, 0, none, none, none⟩

/-- C8: after a refreshed full-set fetch the store equals the normalized
fetched collection, and every previously stored marker whose id is absent
from the fetched collection gets a `REMOVE_MARKER` instruction. On the
spec's scenario (store from a fetch of ids `a, b`, next fetch of ids `b, c`)
the reconciler reports `added = [c]`, `removed = [a]`, and the store
afterwards holds exactly the markers with ids `b` and `c`. -/
theorem fetch_refresh_spec :
    (∀ store data,
      (fetchMarkersStep store data).1 = mapAPIToMarkers data
      ∧ (∀ m ∈ store, m.id ∉ markerIds (mapAPIToMarkers data) →
          Instr.REMOVE_MARKER m.id ∈ (fetchMarkersStep store data).2))
    ∧ addedMarkers (mapAPIToMarkers [iA, iB]) (mapAPIToMarkers [iB, iC]) = [mC]
    ∧ removedMarkers (mapAPIToMarkers [iA, iB]) (mapAPIToMarkers [iB, iC]) = [mA]
    ∧ (fetchMarkersStep (mapAPIToMarkers [iA, iB]) [iB, iC]).1 = [mB, mC] := by
  refine ⟨fun store data => ⟨rfl, ?_⟩, rfl, rfl, rfl⟩
  intro m hm hid
  have hrem : m ∈ removedMarkers store (mapAPIToMarkers data) :=
    (mem_removedMarkers store (mapAPIToMarkers data) m).mpr ⟨hm, hid⟩
  exact List.mem_append_right _ (List.mem_map_of_mem _ hrem)

/-- Witness for C8: in the spec's scenario the marker with id `a` is absent
from the refreshed fetch and receives a `REMOVE_MARKER` instruction. -/
theorem fetch_refresh_witness :
    mA ∈ mapAPIToMarkers [iA, iB]
      ∧ mA.id ∉ markerIds (mapAPIToMarkers [iB, iC])
      ∧ Instr.REMOVE_MARKER mA.id ∈
          (fetchMarkersStep (mapAPIToMarkers [iA, iB]) [iB, iC]).2 :=
  ⟨List.mem_cons_self mA _, by decide,
    (fetch_refresh_spec.1 (mapAPIToMarkers [iA, iB]) [iB, iC]).2 mA
      (List.mem_cons_self mA _) (by decide)⟩

/-! ## Navigation tracker (`startNavigation` / `stopNavigation`) -/

/-- A latitude/longitude pair (the shape of `userLocation` and of route
endpoints). -/
structure Pos where
  lat : ℝ
  lng : ℝ

/-- The navigation-related component state: `isNavigating`,
`showInstructions`, and `navigationSubscription.current` (the active
`watchPositionAsync` handle, modelled by the fixed destination it tracks;
`none` when no subscription is active). -/
structure NavState where
  isNavigating : Bool
  showInstructions : Bool
  subscription : Option Pos

/-- Side effects of the navigation functions: the user-visible error alert,
the `SHOW_ROUTE` command injected into the rendering surface, creating the
position-stream subscription, and releasing it (`subscription.remove()`). -/
inductive NavEffect where
  | alertError
  | showRouteCmd (origin destination : Pos)
  | subscribe (destination : Pos)
  | unsubscribe

/-- `startNavigation(destLat, destLng)` from `MapComponent.tsx`: with no
known `userLocation` it alerts and returns; otherwise it publishes the route
from the current position, sets the navigating flags and subscribes to the
position stream (`watchPositionAsync`, `distanceInterval: 10`). -/
def startNavigation (userLocation : Option Pos) (st : NavState)
    (destLat destLng : ℝ) : NavState × List NavEffect :=
  match userLocation with
  | none => (st, [NavEffect.alertError])
  | some u =>
      ({ isNavigating := true
         showInstructions := true
         subscription := some ⟨destLat, destLng⟩ },
       [NavEffect.showRouteCmd u ⟨destLat, destLng⟩,
        NavEffect.subscribe ⟨destLat, destLng⟩])

/-- `stopNavigation()` from `MapComponent.tsx`: releases the subscription if
one is active, clears the reference, and resets both flags. -/
def stopNavigation (st : NavState) : NavState × List NavEffect :=
  let effs := match st.subscription with
    | some _ => [NavEffect.unsubscribe]
    | none => []
  (⟨false, false, none⟩, effs)

/-- The `Idle` state of the spec's navigation state machine: not navigating
and no active position-stream subscription. -/
def NavState.idle : NavState := ⟨false, false, none⟩

/-- C6: calling `startNavigation` with no known current position reports the
error to the caller and changes nothing: the state is returned untouched (in
particular `Idle` remains `Idle`), the only effect is the error alert — no
route is published and no position-stream subscription is created. -/
theorem startNavigation_no_position_spec :
    ∀ st destLat destLng,
      startNavigation none st destLat destLng = (st, [NavEffect.alertError]) :=
  fun _ _ _ => rfl

/-- C7: `stopNavigation` always lands in `Idle` with no active subscription;
from a state holding a subscription it emits exactly the release of that
subscription, and from a subscription-free (already idle) state it is a
no-op that releases nothing; it never publishes a route. -/
theorem stopNavigation_spec :
    ∀ st,
      (stopNavigation st).1 = NavState.idle
      ∧ (∀ d, st.subscription = some d →
          (stopNavigation st).2 = [NavEffect.unsubscribe])
      ∧ (st.subscription = none → (stopNavigation st).2 = [])
      ∧ (∀ e ∈ (stopNavigation st).2, ∀ o d, e ≠ NavEffect.showRouteCmd o d) := by
  intro st
  refine ⟨rfl, ?_, ?_, ?_⟩
  · intro d hd
    simp [stopNavigation, hd]
  · intro hd
    simp [stopNavigation, hd]
  · intro e he o d
    rcases hs : st.subscription with _ | d'
    · simp [stopNavigation, hs] at he
    · simp [stopNavigation, hs] at he
      simp [he]

/-- Witness for C7: stopping from `Idle` stays `Idle` and releases nothing;
stopping from a navigating state emits exactly the release. -/
theorem stopNavigation_spec_witness :
    (stopNavigation NavState.idle).1 = NavState.idle
      ∧ (stopNavigation NavState.idle).2 = []
      ∧ (stopNavigation ⟨true, true, some ⟨0, 0⟩⟩).2 = [NavEffect.unsubscribe] :=
  ⟨(stopNavigation_spec NavState.idle).1,
    (stopNavigation_spec NavState.idle).2.2.1 rfl,
    (stopNavigation_spec ⟨true, true, some ⟨0, 0⟩⟩).2.1 ⟨0, 0⟩ rfl⟩

/-! ## Live update channel lifecycle (`connectWebSocket` / `disconnectWebSocket`) -/

/-- An open WebSocket connection (held in `wsRef.current`). -/
structure WsConn where
  url : String

/-- The push endpoint URL. -/
def wsUrl : String := "wss://3otpakshrd.execute-api.us-east-1.amazonaws.com/dev"

/-- Connection lifecycle effects. -/
inductive WsEffect where
  | opened
  | closed

/-- `connectWebSocket` from `MapComponent.tsx`: if `wsRef.current` is set,
return immediately; otherwise create the connection and store it. -/
def connectWebSocket (ws : Option WsConn) : Option WsConn × List WsEffect :=
  match ws with
  | some c => (some c, [])
  | none => (some ⟨wsUrl⟩, [WsEffect.opened])

/-- `disconnectWebSocket` from `MapComponent.tsx`: close and clear the
connection if one exists, otherwise do nothing. -/
def disconnectWebSocket (ws : Option WsConn) : Option WsConn × List WsEffect :=
  match ws with
  | some _ => (none, [WsEffect.closed])
  | none => (none, [])

/-- The number of open connections a `wsRef` holds (0 or 1 by construction).
-/
def connCount : Option WsConn → Nat
  | none => 0
  | some _ => 1

/-- C9: at most one open channel connection exists per screen:
`connectWebSocket` while connected is a no-op (same single connection, no
open effect), `disconnectWebSocket` while disconnected is a benign no-op,
and after any connect the reference still holds at most one connection. -/
theorem ws_lifecycle_spec :
    (∀ c, connectWebSocket (some c) = (some c, []))
    ∧ disconnectWebSocket none = (none, [])
    ∧ (∀ ws, connCount (connectWebSocket ws).1 ≤ 1)
    ∧ (∀ ws, connCount (disconnectWebSocket ws).1 ≤ 1) := by
  refine ⟨fun c => rfl, rfl, fun ws => ?_, fun ws => ?_⟩ <;>
    cases ws <;> simp [connectWebSocket, disconnectWebSocket, connCount]

/-! ## Distance calculator (`getDistance`, haversine) -/

/-- `Math.atan2(y, x)`, restricted to real (non-NaN) inputs. -/
noncomputable def atan2 (y x : ℝ) : ℝ :=
  if 0 < x then Real.arctan (y / x)
  else if x < 0 then
    (if 0 ≤ y then Real.arctan (y / x) + Real.pi
     else Real.arctan (y / x) - Real.pi)
  else
    (if 0 < y then Real.pi / 2 else if y < 0 then -(Real.pi / 2) else 0)

/-- `toRad` from `MapComponent.tsx`: `(value * Math.PI) / 180`. -/
noncomputable def toRad (value : ℝ) : ℝ := value * Real.pi / 180

/-- The haversine intermediate `a` of `getDistance`:
`sin(dLat/2)² + cos(toRad lat1) * cos(toRad lat2) * sin(dLon/2)²`. -/
noncomputable def havTerm (lat1 lng1 lat2 lng2 : ℝ) : ℝ :=
  let dLat := toRad (lat2 - lat1)
  let dLon := toRad (lng2 - lng1)
  Real.sin (dLat / 2) * Real.sin (dLat / 2) +
    Real.cos (toRad lat1) * Real.cos (toRad lat2) *
      (Real.sin (dLon / 2) * Real.sin (dLon / 2))

/-- `getDistance` from `MapComponent.tsx`: haversine great-circle distance
with Earth radius `R = 6371` km:
`c = 2 * atan2(sqrt(a), sqrt(1 - a))`, result `R * c`. -/
noncomputable def getDistance (lat1 lng1 lat2 lng2 : ℝ) : ℝ :=
  let R : ℝ := 6371
  let a := havTerm lat1 lng1 lat2 lng2
  let c := 2 * atan2 (Real.sqrt a) (Real.sqrt (1 - a))
  R * c

/-- `atan2` is nonnegative on the closed first quadrant. -/
theorem atan2_nonneg {y x : ℝ} (hy : 0 ≤ y) (hx : 0 ≤ x) : 0 ≤ atan2 y x := by
  unfold atan2
  rcases lt_or_eq_of_le hx with hx' | hx'
  · rw [if_pos hx']
    have h := Real.arctan_strictMono.monotone (div_nonneg hy hx'.le)
    rwa [Real.arctan_zero] at h
  · rw [if_neg (by rw [← hx']; exact lt_irrefl 0),
      if_neg (by rw [← hx']; exact lt_irrefl 0)]
    rcases lt_or_eq_of_le hy with hy' | hy'
    · rw [if_pos hy']
      positivity
    · rw [if_neg (by rw [← hy']; exact lt_irrefl 0), if_neg (by rw [← hy']; exact lt_irrefl 0)]

/-- The haversine term vanishes on a pair of identical positions. -/
theorem havTerm_self (lat lng : ℝ) : havTerm lat lng lat lng = 0 := by
  simp [havTerm, toRad]

/-- The haversine term is symmetric in its two positions. -/
theorem havTerm_symm (lat1 lng1 lat2 lng2 : ℝ) :
    havTerm lat1 lng1 lat2 lng2 = havTerm lat2 lng2 lat1 lng1 := by
  simp only [havTerm, toRad]
  rw [show (lat1 - lat2) * Real.pi / 180 / 2
        = -((lat2 - lat1) * Real.pi / 180 / 2) by ring,
      show (lng1 - lng2) * Real.pi / 180 / 2
        = -((lng2 - lng1) * Real.pi / 180 / 2) by ring]
  simp only [Real.sin_neg]
  ring

/-- C4: the distance calculator returns `0` on identical positions, is
symmetric in its two positions, and is nonnegative on valid positions
(latitudes in `[-90, 90]`, longitudes in `[-180, 180]`). -/
theorem getDistance_metric_spec :
    (∀ lat lng, getDistance lat lng lat lng = 0)
    ∧ (∀ lat1 lng1 lat2 lng2,
        getDistance lat1 lng1 lat2 lng2 = getDistance lat2 lng2 lat1 lng1)
    ∧ (∀ lat1 lng1 lat2 lng2,
        -90 ≤ lat1 → lat1 ≤ 90 → -180 ≤ lng1 → lng1 ≤ 180 →
        -90 ≤ lat2 → lat2 ≤ 90 → -180 ≤ lng2 → lng2 ≤ 180 →
        0 ≤ getDistance lat1 lng1 lat2 lng2) := by
  refine ⟨?_, ?_, ?_⟩
  · intro lat lng
    simp [getDistance, havTerm_self, atan2, Real.arctan_zero]
  · intro lat1 lng1 lat2 lng2
    simp only [getDistance]
    rw [havTerm_symm lat1 lng1 lat2 lng2]
  · intro lat1 lng1 lat2 lng2 _ _ _ _ _ _ _ _
    have h := atan2_nonneg (Real.sqrt_nonneg (havTerm lat1 lng1 lat2 lng2))
      (Real.sqrt_nonneg (1 - havTerm lat1 lng1 lat2 lng2))
    simp only [getDistance]
    positivity

/-- Witness for C4: nonnegativity at the valid position pair of the origin.
-/
theorem getDistance_metric_spec_witness :
    ((-90 : ℝ) ≤ 0 ∧ (0 : ℝ) ≤ 90 ∧ (-180 : ℝ) ≤ 0 ∧ (0 : ℝ) ≤ 180)
      ∧ 0 ≤ getDistance 0 0 0 0 :=
  ⟨⟨by norm_num, by norm_num, by norm_num, by norm_num⟩,
    getDistance_metric_spec.2.2 0 0 0 0 (by norm_num) (by norm_num)
      (by norm_num) (by norm_num) (by norm_num) (by norm_num)
      (by norm_num) (by norm_num)⟩

/-! ## Nearest-marker selection (`handleFindNearest`) -/

/-- The distance from the user position to a marker, as `handleFindNearest`
computes it: `getDistance(userLocation.lat, userLocation.lng, m.lat, m.lng)`.
-/
noncomputable def distTo (u : Pos) (m : MarkerData) : ℝ :=
  getDistance u.lat u.lng m.lat m.lng

/-- The `markers.forEach` minimum-tracking loop of `handleFindNearest`:
starting from the accumulator `(nearest, minDistance)`, each element whose
distance is strictly smaller than the running minimum replaces it. -/
noncomputable def nearestFold (u : Pos) :
    MarkerData × ℝ → List MarkerData → MarkerData × ℝ
  | acc, [] => acc
  | acc, m :: rest =>
    let dist := distTo u m
    if dist < acc.2 then nearestFold u (m, dist) rest
    else nearestFold u acc rest

/-- Result of `handleFindNearest`: either an error alert (unknown position
or empty store, no navigation started), or the invocation of
`startNavigation(nearest.lat, nearest.lng)`. -/
inductive FindNearestResult where
  | error
  | navigate (destLat destLng : ℝ)

/-- The marker `handleFindNearest` selects: `nearest` starts at `markers[0]`
with its distance, and the loop runs over the whole store. -/
noncomputable def selectedNearest (u : Pos) : List MarkerData → Option MarkerData
  | [] => none
  | m0 :: rest => some (nearestFold u (m0, distTo u m0) (m0 :: rest)).1

/-- `handleFindNearest` from `MapComponent.tsx`: errors when the current
position is unknown or the store is empty; otherwise starts navigation to
the selected nearest marker. -/
noncomputable def handleFindNearest (userLocation : Option Pos)
    (markers : List MarkerData) : FindNearestResult :=
  match userLocation with
  | none => .error
  | some u =>
    match markers with
    | [] => .error
    | m0 :: rest =>
      let nearest := (nearestFold u (m0, distTo u m0) (m0 :: rest)).1
      .navigate nearest.lat nearest.lng

/-- The loop invariant of the minimum-tracking fold: starting from a marker
and its own distance, the fold returns either the start marker (then no
listed marker beats it) or the first listed marker attaining a strictly
smaller minimum (then all earlier elements are strictly farther and all
later ones no nearer). -/
theorem nearestFold_first_min (u : Pos) :
    ∀ (l : List MarkerData) (m : MarkerData),
      (nearestFold u (m, distTo u m) l).2
          = distTo u (nearestFold u (m, distTo u m) l).1
      ∧ (((nearestFold u (m, distTo u m) l).1 = m
            ∧ ∀ x ∈ l, distTo u m ≤ distTo u x)
        ∨ (∃ l1 l2, l = l1 ++ (nearestFold u (m, distTo u m) l).1 :: l2
            ∧ distTo u (nearestFold u (m, distTo u m) l).1 < distTo u m
            ∧ (∀ x ∈ l1,
                distTo u (nearestFold u (m, distTo u m) l).1 < distTo u x)
            ∧ (∀ x ∈ l2,
                distTo u (nearestFold u (m, distTo u m) l).1 ≤ distTo u x))) := by
  intro l
  induction l with
  | nil => exact fun m => ⟨rfl, Or.inl ⟨rfl, by simp⟩⟩
  | cons a t ih =>
    intro m
    by_cases h : distTo u a < distTo u m
    · have hstep : nearestFold u (m, distTo u m) (a :: t)
          = nearestFold u (a, distTo u a) t := by
        simp only [nearestFold]
        rw [if_pos h]
      rw [hstep]
      obtain ⟨hd, hcase⟩ := ih a
      refine ⟨hd, Or.inr ?_⟩
      rcases hcase with ⟨he, hmin⟩ | ⟨l1, l2, hsplit, hlt, hl1, hl2⟩
      · refine ⟨[], t, by simp [he], by rw [he]; exact h, by simp, ?_⟩
        intro x hx
        rw [he]
        exact hmin x hx
      · refine ⟨a :: l1, l2, by rw [List.cons_append, ← hsplit],
          hlt.trans h, ?_, hl2⟩
        intro x hx
        rcases List.mem_cons.1 hx with hxa | hx'
        · rw [hxa]; exact hlt
        · exact hl1 x hx'
    · have hstep : nearestFold u (m, distTo u m) (a :: t)
          = nearestFold u (m, distTo u m) t := by
        simp only [nearestFold]
        rw [if_neg h]
      rw [hstep]
      obtain ⟨hd, hcase⟩ := ih m
      refine ⟨hd, ?_⟩
      rcases hcase with ⟨he, hmin⟩ | ⟨l1, l2, hsplit, hlt, hl1, hl2⟩
      · refine Or.inl ⟨he, ?_⟩
        intro x hx
        rcases List.mem_cons.1 hx with hxa | hx'
        · rw [hxa]; exact not_lt.1 h
        · exact hmin x hx'
      · refine Or.inr ⟨a :: l1, l2, by rw [List.cons_append, ← hsplit],
          hlt, ?_, hl2⟩
        intro x hx
        rcases List.mem_cons.1 hx with hxa | hx'
        · rw [hxa]; exact lt_of_lt_of_le hlt (not_lt.1 h)
        · exact hl1 x hx'

/-- On a nonempty store, the selected marker is the first minimizer of
`distTo` in store order. -/
theorem selectedNearest_spec (u : Pos) (m0 : MarkerData) (rest : List MarkerData) :
    ∃ nearest l1 l2,
      selectedNearest u (m0 :: rest) = some nearest
      ∧ handleFindNearest (some u) (m0 :: rest)
          = .navigate nearest.lat nearest.lng
      ∧ m0 :: rest = l1 ++ nearest :: l2
      ∧ (∀ x ∈ l1, distTo u nearest < distTo u x)
      ∧ (∀ x ∈ l2, distTo u nearest ≤ distTo u x)
      ∧ (∀ x ∈ m0 :: rest, distTo u nearest ≤ distTo u x) := by
  have hhead : nearestFold u (m0, distTo u m0) (m0 :: rest)
      = nearestFold u (m0, distTo u m0) rest := by
    simp only [nearestFold]
    rw [if_neg (lt_irrefl (distTo u m0))]
  obtain ⟨hd, hcase⟩ := nearestFold_first_min u rest m0
  refine ⟨(nearestFold u (m0, distTo u m0) (m0 :: rest)).1, ?_⟩
  rcases hcase with ⟨he, hmin⟩ | ⟨l1, l2, hsplit, hlt, hl1, hl2⟩
  · refine ⟨[], rest, rfl, rfl, ?_, by simp, ?_, ?_⟩
    · rw [hhead, he]
      exact (List.nil_append _).symm
    · intro x hx
      rw [hhead, he]
      exact hmin x hx
    · intro x hx
      rw [hhead, he]
      rcases List.mem_cons.1 hx with hxa | hx'
      · rw [hxa]
      · exact hmin x hx'
  · refine ⟨m0 :: l1, l2, rfl, rfl, ?_, ?_, ?_, ?_⟩
    · rw [hhead, List.cons_append, ← hsplit]
    · intro x hx
      rw [hhead]
      rcases List.mem_cons.1 hx with hxa | hx'
      · rw [hxa]; exact hlt
      · exact hl1 x hx'
    · intro x hx
      rw [hhead]
      exact hl2 x hx
    · intro x hx
      rw [hhead]
      rcases List.mem_cons.1 hx with hxa | hx'
      · rw [hxa]; exact hlt.le
      · rcases List.mem_append.1 (hsplit ▸ hx') with hx1 | hx2
        · exact (hl1 x hx1).le
        · rcases List.mem_cons.1 hx2 with hxa | hx3
          · rw [hxa]
          · exact hl2 x hx3

/-! ### Numeric facts needed for the spec's concrete nearest-marker example -/

theorem sin_mul_self_le_sq (x : ℝ) : Real.sin x * Real.sin x ≤ x * x := by
  have h : Real.sin x ^ 2 ≤ x ^ 2 := Real.sin_sq_le_sq
  rw [pow_two, pow_two] at h
  exact h

theorem cos_mul_cos_le_one (x y : ℝ) : Real.cos x * Real.cos y ≤ 1 := by
  nlinarith [Real.neg_one_le_cos x, Real.cos_le_one x,
    Real.neg_one_le_cos y, Real.cos_le_one y]

theorem cos_toRad_pos {lat : ℝ} (h1 : -90 < lat) (h2 : lat < 90) :
    0 < Real.cos (toRad lat) := by
  refine Real.cos_pos_of_mem_Ioo (Set.mem_Ioo.mpr ⟨?_, ?_⟩) <;>
    simp only [toRad] <;> nlinarith [Real.pi_pos]

/-- The haversine term is bounded by the sum of squared half-angles. -/
theorem havTerm_le_sq (lat1 lng1 lat2 lng2 : ℝ) :
    havTerm lat1 lng1 lat2 lng2
      ≤ toRad (lat2 - lat1) / 2 * (toRad (lat2 - lat1) / 2)
        + toRad (lng2 - lng1) / 2 * (toRad (lng2 - lng1) / 2) := by
  simp only [havTerm]
  nlinarith [sin_mul_self_le_sq (toRad (lat2 - lat1) / 2),
    sin_mul_self_le_sq (toRad (lng2 - lng1) / 2),
    cos_mul_cos_le_one (toRad lat1) (toRad lat2),
    mul_self_nonneg (Real.sin (toRad (lng2 - lng1) / 2))]

/-- With nonnegative cosine product, the haversine term dominates its
latitude part. -/
theorem havTerm_ge_latpart (lat1 lng1 lat2 lng2 : ℝ)
    (hc : 0 ≤ Real.cos (toRad lat1) * Real.cos (toRad lat2)) :
    Real.sin (toRad (lat2 - lat1) / 2) * Real.sin (toRad (lat2 - lat1) / 2)
      ≤ havTerm lat1 lng1 lat2 lng2 := by
  simp only [havTerm]
  nlinarith [mul_self_nonneg (Real.sin (toRad (lng2 - lng1) / 2)), hc]

/-- `getDistance` is strictly monotone in the haversine term on `[0, 1)`. -/
theorem getDistance_lt_of_havTerm_lt {uLat uLng lat2 lng2 lat3 lng3 : ℝ}
    (h0 : 0 ≤ havTerm uLat uLng lat2 lng2)
    (hlt : havTerm uLat uLng lat2 lng2 < havTerm uLat uLng lat3 lng3)
    (h1 : havTerm uLat uLng lat3 lng3 < 1) :
    getDistance uLat uLng lat2 lng2 < getDistance uLat uLng lat3 lng3 := by
  simp only [getDistance]
  set A := havTerm uLat uLng lat2 lng2 with hA
  set B := havTerm uLat uLng lat3 lng3 with hB
  have hA1 : 0 < 1 - A := by linarith
  have hB1 : 0 < 1 - B := by linarith
  have hsA : 0 < Real.sqrt (1 - A) := Real.sqrt_pos.mpr hA1
  have hsB : 0 < Real.sqrt (1 - B) := Real.sqrt_pos.mpr hB1
  have hnum : Real.sqrt A < Real.sqrt B := Real.sqrt_lt_sqrt h0 hlt
  have hden : Real.sqrt (1 - B) ≤ Real.sqrt (1 - A) :=
    Real.sqrt_le_sqrt (by linarith)
  have hdiv : Real.sqrt A / Real.sqrt (1 - A)
      < Real.sqrt B / Real.sqrt (1 - B) :=
    calc Real.sqrt A / Real.sqrt (1 - A)
        ≤ Real.sqrt A / Real.sqrt (1 - B) :=
          div_le_div_of_nonneg_left (Real.sqrt_nonneg A) hsB hden
      _ < Real.sqrt B / Real.sqrt (1 - B) :=
          (div_lt_div_iff_of_pos_right hsB).mpr hnum
  have hat : atan2 (Real.sqrt A) (Real.sqrt (1 - A))
      < atan2 (Real.sqrt B) (Real.sqrt (1 - B)) := by
    unfold atan2
    rw [if_pos hsA, if_pos hsB]
    exact Real.arctan_strictMono hdiv
  linarith

set_option maxHeartbeats 1000000 in
/-- The spec's nearest-selection example: the haversine term to the marker at
`(-12.05, -77.04)` is strictly below the one to `(-12.10, -77.10)`. -/
theorem havTerm_example_lt :
    havTerm (-12.046) (-77.042) (-12.05) (-77.04)
      < havTerm (-12.046) (-77.042) (-12.10) (-77.10) := by
  have hπl : (3.1415 : ℝ) < Real.pi := Real.pi_gt_d4
  have hπu : Real.pi < 3.1416 := Real.pi_lt_d4
  have hπ0 := Real.pi_pos
  have hA := havTerm_le_sq (-12.046) (-77.042) (-12.05) (-77.04)
  have e1 : ((-12.05 : ℝ) - (-12.046)) = -0.004 := by norm_num
  have e2 : ((-77.04 : ℝ) - (-77.042)) = 0.002 := by norm_num
  rw [e1, e2] at hA
  simp only [toRad] at hA
  have hp2u : Real.pi * Real.pi < 9.87 := by nlinarith [hπu, hπ0]
  have hAu : havTerm (-12.046) (-77.042) (-12.05) (-77.04) < 0.0000000016 := by
    linarith [hA, hp2u]
  have hcu : 0 < Real.cos (toRad (-12.046)) :=
    cos_toRad_pos (by norm_num) (by norm_num)
  have hc2 : 0 < Real.cos (toRad (-12.10)) :=
    cos_toRad_pos (by norm_num) (by norm_num)
  have hB := havTerm_ge_latpart (-12.046) (-77.042) (-12.10) (-77.10)
    (mul_nonneg hcu.le hc2.le)
  have e3 : ((-12.10 : ℝ) - (-12.046)) = -0.054 := by norm_num
  rw [e3] at hB
  have e4 : toRad (-0.054) / 2 = -(0.054 * Real.pi / 180 / 2) := by
    simp only [toRad]
    ring
  rw [e4, Real.sin_neg, neg_mul_neg] at hB
  set t := 0.054 * Real.pi / 180 / 2 with ht
  have ht0 : 0 < t := by rw [ht]; positivity
  have ht1 : t ≤ 1 := by rw [ht]; linarith [hπu]
  have hsin := Real.sin_gt_sub_cube ht0 ht1
  have htl : 0.000471 < t := by rw [ht]; linarith [hπl]
  have htu : t < 0.000472 := by rw [ht]; linarith [hπu]
  have hsq : t * t < 0.000472 * 0.000472 := by nlinarith [htu, ht0]
  have hcube : t ^ 3 < 0.0000000002 := by nlinarith [hsq, htu, ht0, mul_pos ht0 ht0]
  have hlin : 0.00047 < t - t ^ 3 / 4 := by linarith [htl, hcube]
  have hsin2 : 0.00047 < Real.sin t := hlin.trans hsin
  have hBl : 0.0000002 < Real.sin t * Real.sin t := by nlinarith [hsin2]
  linarith [hAu, hBl, hB]

theorem havTerm_example_nonneg :
    0 ≤ havTerm (-12.046) (-77.042) (-12.05) (-77.04) := by
  have hcu : 0 < Real.cos (toRad (-12.046)) :=
    cos_toRad_pos (by norm_num) (by norm_num)
  have hc1 : 0 < Real.cos (toRad (-12.05)) :=
    cos_toRad_pos (by norm_num) (by norm_num)
  exact le_trans (mul_self_nonneg _)
    (havTerm_ge_latpart (-12.046) (-77.042) (-12.05) (-77.04)
      (mul_nonneg hcu.le hc1.le))

theorem havTerm_example_lt_one :
    havTerm (-12.046) (-77.042) (-12.10) (-77.10) < 1 := by
  have hπu : Real.pi < 3.1416 := Real.pi_lt_d4
  have hπ0 := Real.pi_pos
  have h := havTerm_le_sq (-12.046) (-77.042) (-12.10) (-77.10)
  have e3 : ((-12.10 : ℝ) - (-12.046)) = -0.054 := by norm_num
  have e5 : ((-77.10 : ℝ) - (-77.042)) = -0.058 := by norm_num
  rw [e3, e5] at h
  simp only [toRad] at h
  have hp2u : Real.pi * Real.pi < 9.87 := by nlinarith [hπu, hπ0]
  linarith [h, hp2u]

/-- On the spec's example the distance to the first marker is strictly
smaller. -/
theorem getDistance_example_lt :
    getDistance (-12.046) (-77.042) (-12.05) (-77.04)
      < getDistance (-12.046) (-77.042) (-12.10) (-77.10) :=
  getDistance_lt_of_havTerm_lt havTerm_example_nonneg havTerm_example_lt
    havTerm_example_lt_one

/-- The markers and current position of the spec's nearest-selection
example. -/
noncomputable def mEx1 : MarkerData := ⟨"1", -12.05, -77.04, none, none, none⟩

noncomputable def mEx2 : MarkerData := ⟨"2", -12.10, -77.10, none, none, none⟩

noncomputable def uEx : Pos := ⟨-12.046, -77.042⟩

/-- On the example store the minimum-tracking loop keeps the first marker. -/
theorem nearestFold_example :
    (nearestFold uEx (mEx1, distTo uEx mEx1) [mEx1, mEx2]).1 = mEx1 := by
  have h12 : distTo uEx mEx1 < distTo uEx mEx2 := getDistance_example_lt
  have hn : ¬ distTo uEx mEx2 < distTo uEx mEx1 := not_lt.2 h12.le
  simp [nearestFold, hn]

/-- C3: with a known position, `handleFindNearest` starts navigation to the
store's first marker minimizing `getDistance` from the current position
(ties resolving to the first minimal element in store order); with an
unknown position or an empty store it reports an error and performs no
navigation. On the spec's example store the selected marker is the one with
id `"1"` and navigation starts toward its position. -/
theorem handleFindNearest_spec :
    (∀ markers, handleFindNearest none markers = .error)
    ∧ (∀ u, handleFindNearest (some u) [] = .error)
    ∧ (∀ u m0 rest, ∃ nearest l1 l2,
        selectedNearest u (m0 :: rest) = some nearest
        ∧ handleFindNearest (some u) (m0 :: rest)
            = .navigate nearest.lat nearest.lng
        ∧ m0 :: rest = l1 ++ nearest :: l2
        ∧ (∀ x ∈ l1, distTo u nearest < distTo u x)
        ∧ (∀ x ∈ l2, distTo u nearest ≤ distTo u x)
        ∧ (∀ x ∈ m0 :: rest, distTo u nearest ≤ distTo u x))
    ∧ selectedNearest uEx [mEx1, mEx2] = some mEx1
    ∧ handleFindNearest (some uEx) [mEx1, mEx2]
        = .navigate mEx1.lat mEx1.lng := by
  refine ⟨fun markers => rfl, fun u => rfl,
    fun u m0 rest => selectedNearest_spec u m0 rest, ?_, ?_⟩
  · simp only [selectedNearest, nearestFold_example]
  · simp only [handleFindNearest, nearestFold_example]

/-- Witness for C3: the error cases at concrete inputs. -/
theorem handleFindNearest_spec_witness :
    handleFindNearest none [] = FindNearestResult.error
      ∧ handleFindNearest (some uEx) [] = FindNearestResult.error :=
  ⟨handleFindNearest_spec.1 [], handleFindNearest_spec.2.1 uEx⟩

end Ecodegraders
